import Mathlib

/-!
Shallow embedding of the order pricing and lifecycle engine of the
CommuneX / WashX laundry-order backend (source: an Express + Mongoose
server, routes `app.post('/api/orders')`, `app.put('/api/orders/:id')`,
helpers `generateOrderId` and `calculateExpectedDelivery`).

Modelling conventions:
- JS numbers are modelled as `ℚ` (money, weights, multipliers) or `ℤ`
  (instants, measured in hours since an arbitrary epoch; adding TAT hours
  to a date is modelled as integer addition).
- A JS value that may be `null`/`undefined` is an `Option`.
- The JS `x || y` idiom on numbers is truthiness-sensitive: `0`, `null`
  and `undefined` all fall through to `y`.  Helpers `jsOrQ` / `jsOrOptQ`
  reproduce this exactly.
- Mongoose documents are plain structures; `ObjectId`s are `ℕ`.
- Fallible route code (400/500 responses, thrown TypeErrors) is modelled
  with `Except`.
-/

namespace WashX

/-- JS `x || d` for a number `x` that is present: `0` is falsy. -/
def jsOrQ (x : ℚ) (d : ℚ) : ℚ := if x = 0 then d else x

/-- JS `x || d` for a possibly-`undefined` number `x`. -/
def jsOrOptQ (x : Option ℚ) (d : ℚ) : ℚ :=
  match x with
  | some v => jsOrQ v d
  | none => d

/-- The `serviceType` enum of the order schema. -/
inductive ServiceTier
  | Standard
  | Express
  | Superfast
deriving DecidableEq, Repr

/-- The `pricingModel` enum of the service schema. -/
inductive PricingModel
  | PerKg
  | PerItem
  | PerPair
deriving DecidableEq, Repr

/-- One entry of `serviceSchema.subcategories`. -/
structure Subcategory where
  itemName : String
  price : ℚ
deriving DecidableEq, Repr

/-- The service catalog document (`serviceSchema`).  `pricePerKg` is
required by the schema when `pricingModel = PerKg` and `pricePerPair`
when `PerPair`; each is only ever read in its own branch of the pricer,
so both are modelled as total fields.  The multiplier fields carry the
schema defaults 1.5 and 2. -/
structure Service where
  categoryName : String
  pricingModel : PricingModel
  pricePerKg : ℚ
  pricePerPair : ℚ
  subcategories : List Subcategory
  standardTAT : String
  expressTAT : Option String
  superfastTAT : Option String
  expressPriceMultiplier : ℚ := 3/2
  superfastPriceMultiplier : ℚ := 2
deriving DecidableEq, Repr

/-- A requested sub-item of a `PerItem` line item (`items[].subItems`
as it arrives in the request body): `pricePerItem` is an optional
caller override. -/
structure RawSubItem where
  itemName : String
  quantity : ℚ
  pricePerItem : Option ℚ
deriving DecidableEq, Repr

/-- A raw line item of the request body (`items[]`). -/
structure RawItem where
  serviceCategoryID : ℕ
  serviceType : ServiceTier
  weightInKg : ℚ
  pairCount : ℚ
  pricePerKg : Option ℚ
  pricePerPair : Option ℚ
  subItems : List RawSubItem
deriving DecidableEq, Repr

/-- A priced sub-item (`processedItem.subItems` entries). -/
structure ProcessedSubItem where
  itemName : String
  quantity : ℚ
  pricePerItem : ℚ
deriving DecidableEq, Repr

/-- A priced line item (`processedItem` built by the create/update
routes and persisted in `orderSchema.items`). -/
structure ProcessedItem where
  serviceCategoryID : ℕ
  serviceType : ServiceTier
  weightInKg : Option ℚ
  pairCount : Option ℚ
  pricePerKg : Option ℚ
  pricePerPair : Option ℚ
  subItems : List ProcessedSubItem
  itemTotal : ℚ
deriving DecidableEq, Repr

/-- Failures of the per-item pricing loop.  `invalidService` is the
`Invalid service ID` 400 response; `subcategoryTypeError` is the
TypeError thrown by `serviceSubItem.price` when
`subcategories.find(...)` returned `undefined` (surfaced by the route's
catch block as a generic 500, not as a validation error). -/
inductive PriceError
  | invalidService (id : ℕ)
  | subcategoryTypeError (itemName : String)
deriving DecidableEq, Repr

/-- The multiplier chosen at the top of the pricing loop:
`1` for Standard, `service.expressPriceMultiplier || 1.5` for Express,
`service.superfastPriceMultiplier || 2` for Superfast. -/
def tierMultiplier (service : Service) (tier : ServiceTier) : ℚ :=
  match tier with
  | .Standard => 1
  | .Express => jsOrQ service.expressPriceMultiplier (3/2)
  | .Superfast => jsOrQ service.superfastPriceMultiplier 2

/-- Unit price of one requested sub-item of a `PerItem` line:
`const serviceSubItem = service.subcategories.find(s => s.itemName === sub.itemName);`
`const pricePerItem = sub.pricePerItem || (serviceSubItem.price * multiplier);`
When the caller override is absent or `0` and the name has no match,
`serviceSubItem` is `undefined` and reading `.price` throws. -/
def subItemUnitPrice (service : Service) (multiplier : ℚ) (sub : RawSubItem) :
    Except PriceError ℚ :=
  match sub.pricePerItem with
  | some p =>
    if p = 0 then
      match service.subcategories.find? (fun s => s.itemName == sub.itemName) with
      | some sc => .ok (sc.price * multiplier)
      | none => .error (.subcategoryTypeError sub.itemName)
    else .ok p
  | none =>
    match service.subcategories.find? (fun s => s.itemName == sub.itemName) with
    | some sc => .ok (sc.price * multiplier)
    | none => .error (.subcategoryTypeError sub.itemName)

/-- The `PerItem` inner loop, accumulating
`currentItemTotal += sub.quantity * pricePerItem` and collecting the
processed sub-items in request order, aborting at the first throw. -/
def priceSubItems (service : Service) (multiplier : ℚ) :
    List RawSubItem → Except PriceError (List ProcessedSubItem × ℚ)
  | [] => .ok ([], 0)
  | sub :: rest =>
    match subItemUnitPrice service multiplier sub with
    | .error e => .error e
    | .ok pricePerItem =>
      match priceSubItems service multiplier rest with
      | .error e => .error e
      | .ok (ps, total) =>
        .ok (⟨sub.itemName, sub.quantity, pricePerItem⟩ :: ps,
             sub.quantity * pricePerItem + total)

/-- One iteration of the pricing loop shared verbatim by the create and
update routes: catalog lookup, multiplier, branch on the pricing model,
and `processedItem.itemTotal = currentItemTotal`. -/
def priceItem (catalog : ℕ → Option Service) (item : RawItem) :
    Except PriceError ProcessedItem :=
  match catalog item.serviceCategoryID with
  | none => .error (.invalidService item.serviceCategoryID)
  | some service =>
    let multiplier := tierMultiplier service item.serviceType
    match service.pricingModel with
    | .PerKg =>
      let pricePerKg := jsOrOptQ item.pricePerKg (service.pricePerKg * multiplier)
      .ok { serviceCategoryID := item.serviceCategoryID
            serviceType := item.serviceType
            weightInKg := some item.weightInKg
            pairCount := none
            pricePerKg := some pricePerKg
            pricePerPair := none
            subItems := []
            itemTotal := item.weightInKg * pricePerKg }
    | .PerPair =>
      let pricePerPair := jsOrOptQ item.pricePerPair (service.pricePerPair * multiplier)
      .ok { serviceCategoryID := item.serviceCategoryID
            serviceType := item.serviceType
            weightInKg := none
            pairCount := some item.pairCount
            pricePerKg := none
            pricePerPair := some pricePerPair
            subItems := []
            itemTotal := item.pairCount * pricePerPair }
    | .PerItem =>
      match priceSubItems service multiplier item.subItems with
      | .error e => .error e
      | .ok (subs, total) =>
        .ok { serviceCategoryID := item.serviceCategoryID
              serviceType := item.serviceType
              weightInKg := none
              pairCount := none
              pricePerKg := none
              pricePerPair := none
              subItems := subs
              itemTotal := total }

/-- The per-group pricing loop: prices every item of a group in order,
aborting at the first failure, and accumulates
`serverCalculatedBill += currentItemTotal`. -/
def priceGroup (catalog : ℕ → Option Service) :
    List RawItem → Except PriceError (List ProcessedItem × ℚ)
  | [] => .ok ([], 0)
  | item :: rest =>
    match priceItem catalog item with
    | .error e => .error e
    | .ok p =>
      match priceGroup catalog rest with
      | .error e => .error e
      | .ok (ps, bill) => .ok (p :: ps, p.itemTotal + bill)

/-- Numeric value of a decimal digit run, most significant first. -/
def digitsVal (ds : List Char) : ℕ :=
  ds.foldl (fun acc c => 10 * acc + (c.toNat - Char.toNat '0')) 0

/-- JS `parseInt(s, 10)`: skip leading whitespace, read an optional
sign and then the leading run of decimal digits; `none` models `NaN`
(no digits at all). -/
def parseIntJs (s : String) : Option ℤ :=
  let cs := s.data.dropWhile (fun c => c == ' ' || c == '\t' || c == '\n' || c == '\r')
  let signed : ℤ × List Char :=
    match cs with
    | '-' :: r => (-1, r)
    | '+' :: r => (1, r)
    | r => (1, r)
  let ds := signed.2.takeWhile Char.isDigit
  if ds.isEmpty then none else some (signed.1 * (digitsVal ds : ℤ))

/-- The hours one item contributes inside `calculateExpectedDelivery`:
`0` when the catalog lookup fails (the `if (service)` guard), the TAT
string is chosen by the tier switch (default branch reads
`standardTAT`), and `parseInt(tatString, 10) || 0` turns an
unparseable or missing string into `0`. -/
def itemTatHours (catalog : ℕ → Option Service) (item : ProcessedItem) : ℤ :=
  match catalog item.serviceCategoryID with
  | none => 0
  | some service =>
    let tatString : Option String :=
      match item.serviceType with
      | .Express => service.expressTAT
      | .Superfast => service.superfastTAT
      | .Standard => some service.standardTAT
    match tatString with
    | none => 0
    | some s =>
      match parseIntJs s with
      | none => 0
      | some v => v

/-- The helper `calculateExpectedDelivery(items, startDate)`: `null` when
`startDate` is falsy; otherwise the running maximum (starting at 0,
updated only when strictly larger) of the items' TAT hours, and `null`
when that maximum stays at 0, else `startDate` plus the maximum.
Instants are hours since an epoch, so `setHours(getHours() + h)` is
`+ h`. -/
def calculateExpectedDelivery (catalog : ℕ → Option Service)
    (items : List ProcessedItem) (startDate : Option ℤ) : Option ℤ :=
  match startDate with
  | none => none
  | some start =>
    let maxTatHours := items.foldl (fun acc it => max acc (itemTatHours catalog it)) 0
    if 0 < maxTatHours then some (start + maxTatHours) else none

/-- Lowercase hex digit of a value below 16, as produced by
`Buffer.toString('hex')`. -/
def hexDigitChar (n : ℕ) : Char :=
  if n < 10 then Char.ofNat (Char.toNat '0' + n) else Char.ofNat (Char.toNat 'a' + (n - 10))

/-- The two lowercase hex characters encoding one byte. -/
def byteToHexChars (b : ℕ) : List Char :=
  [hexDigitChar (b / 16 % 16), hexDigitChar (b % 16)]

/-- The draw `crypto.randomBytes(3).toString('hex').slice(0, 5).toUpperCase()`
for one draw of three bytes: six lowercase hex characters, the first
five of them, uppercased. -/
def codeOfBytes (b : ℕ × ℕ × ℕ) : String :=
  String.mk (((byteToHexChars b.1 ++ byteToHexChars b.2.1 ++ byteToHexChars b.2.2).take 5).map
    Char.toUpper)

/-- The retry loop of `generateOrderId`, with the random stream made
explicit: attempt `k` draws `draws k`, formats `WX-<code>`, and
returns it unless an existing order already holds it.  The source loop
is `while (true)`; the model adds fuel, returning the successful
attempt index alongside the id. -/
def generateOrderIdAux (draws : ℕ → ℕ × ℕ × ℕ) (existing : List String) :
    ℕ → ℕ → Option (String × ℕ)
  | _, 0 => none
  | k, fuel + 1 =>
    let orderId := "WX-" ++ codeOfBytes (draws k)
    if orderId ∈ existing then generateOrderIdAux draws existing (k + 1) fuel
    else some (orderId, k + 1)

/-- The helper `generateOrderId()` starting from attempt 0. -/
def generateOrderId (draws : ℕ → ℕ × ℕ × ℕ) (existing : List String) (fuel : ℕ) :
    Option (String × ℕ) :=
  generateOrderIdAux draws existing 0 fuel

/-- One embedded address of a customer (`embeddedAddressSchema`), with
the society reference already resolved to its name (the route
populates `addresses.society` before reading `.name`). -/
structure Address where
  address : String
  societyName : String
  pincode : String
  isCurrent : Bool
deriving DecidableEq, Repr

/-- A customer document, as far as order creation reads it. -/
structure Customer where
  customerName : String
  addresses : List Address
deriving DecidableEq, Repr

/-- A persisted order document (`orderSchema`), restricted to the
fields the create and update routes read or write.  Dates are hours
since an epoch; `ObjectId` references are `ℕ`.  The pass-through CRUD
fields `deliveryType`, `paymentMethod` and `transactionID` are not
modelled (no route logic branches on them). -/
structure OrderRecord where
  orderId : String
  customerID : ℕ
  deliveryAddress : String
  deliverySociety : String
  deliveryPincode : Option String
  orderSource : String
  items : List ProcessedItem
  billAmount : ℚ
  orderStatus : String
  paymentStatus : String
  pickupDate : Option ℤ
  pickupSlot : Option ℕ
  pickupAgent : Option ℕ
  pickupAgentName : Option String
  deliveryDate : Option ℤ
  expectedDeliveryDate : Option ℤ
  deliverySlot : Option ℕ
  deliveryAgent : Option ℕ
  deliveryAgentName : Option String
  orderedOn : ℤ
deriving DecidableEq, Repr

/-- The request body of `POST /api/orders`, as far as the route reads
it.  `billAmount` models a caller-supplied bill: the spread
`{ ...req.body }` copies it but the route then overwrites
`billAmount` with `serverCalculatedBill`, so the field is never read
by the model either. -/
structure CreateRequest where
  customerID : ℕ
  items : List RawItem
  pickupAgent : Option ℕ := none
  isPickupScheduled : Bool := false
  pickupDate : Option ℤ := none
  pickupSlot : Option ℕ := none
  orderSource : String := "Call"
  paymentStatus : String := "Pending"
  billAmount : Option ℚ := none
deriving DecidableEq, Repr

/-- The collaborators of order creation: the service catalog, the
customer store, the ids of already-persisted orders, the random byte
stream consumed by `generateOrderId`, and the current instant. -/
structure CreateEnv where
  catalog : ℕ → Option Service
  customers : ℕ → Option Customer
  existingOrderIds : List String
  draws : ℕ → ℕ × ℕ × ℕ
  now : ℤ

/-- Failures of `POST /api/orders`: the three explicit early responses,
a pricing failure inside a group, and exhaustion of the id-generation
fuel (the source loops forever instead). -/
inductive CreateError
  | emptyOrder
  | customerNotFound
  | noAddress
  | price (e : PriceError)
  | idFuelExhausted
deriving DecidableEq, Repr

/-- The distinct service tiers of the submitted items, in encounter
order of each tier's first item: this is the key-insertion order of
the `items.reduce` grouping object, which the route's `for ... in`
loop then walks. -/
def distinctTiers (items : List RawItem) : List ServiceTier :=
  items.foldl (fun acc it => if it.serviceType ∈ acc then acc else acc ++ [it.serviceType]) []

/-- The order document assembled for one tier group:
`{ ...req.body, items, billAmount, deliveryAddress, deliverySociety,
deliveryPincode }` plus the generated id, the scheduling branch on
`isPickupScheduled` (which deletes the pickup fields in the
walk-in/immediate branch), and the expected delivery date.  A missing
`pickupDate` with `isPickupScheduled` set would give an invalid JS
`Date`; date validity is modelled as presence. -/
def buildCreatedOrder (env : CreateEnv) (req : CreateRequest) (currentAddress : Address)
    (oid : String) (pis : List ProcessedItem) (bill : ℚ) : OrderRecord :=
  let calculationStartDate : Option ℤ :=
    if req.isPickupScheduled then req.pickupDate else some env.now
  { orderId := oid
    customerID := req.customerID
    deliveryAddress := currentAddress.address
    deliverySociety := currentAddress.societyName
    deliveryPincode := some currentAddress.pincode
    orderSource := req.orderSource
    items := pis
    billAmount := bill
    orderStatus :=
      if req.isPickupScheduled then
        (if req.pickupAgent.isSome then "Pick-up Pending" else "New")
      else "In-Progress"
    paymentStatus := req.paymentStatus
    pickupDate := if req.isPickupScheduled then req.pickupDate else none
    pickupSlot := if req.isPickupScheduled then req.pickupSlot else none
    pickupAgent := if req.isPickupScheduled then req.pickupAgent else none
    pickupAgentName := none
    deliveryDate := none
    expectedDeliveryDate := calculateExpectedDelivery env.catalog pis calculationStartDate
    deliverySlot := none
    deliveryAgent := none
    deliveryAgentName := none
    orderedOn := env.now }

/-- The per-tier loop of `POST /api/orders`: price the group, draw a
fresh id (later groups see the ids of earlier groups as existing),
assemble and persist the order. -/
def createLoop (env : CreateEnv) (req : CreateRequest) (currentAddress : Address) (fuel : ℕ) :
    List ServiceTier → List String → ℕ → Except CreateError (List OrderRecord)
  | [], _, _ => .ok []
  | tier :: rest, existing, drawIdx =>
    let groupItems := req.items.filter (fun it => it.serviceType == tier)
    match priceGroup env.catalog groupItems with
    | .error e => .error (.price e)
    | .ok (pis, bill) =>
      match generateOrderIdAux env.draws existing drawIdx fuel with
      | none => .error .idFuelExhausted
      | some (oid, drawIdx') =>
        match createLoop env req currentAddress fuel rest (existing ++ [oid]) drawIdx' with
        | .error e => .error e
        | .ok orders => .ok (buildCreatedOrder env req currentAddress oid pis bill :: orders)

/-- The route `POST /api/orders`: the empty-items check comes first in the
source, then the customer fetch, then the current-address selection
`customer.addresses.find(a => a.isCurrent) || customer.addresses[0]`,
then the per-tier creation loop. -/
def createOrders (env : CreateEnv) (req : CreateRequest) (fuel : ℕ) :
    Except CreateError (List OrderRecord) :=
  if req.items.isEmpty then .error .emptyOrder
  else
    match env.customers req.customerID with
    | none => .error .customerNotFound
    | some customer =>
      match customer.addresses.find? (fun a => a.isCurrent) <|> customer.addresses.head? with
      | none => .error .noAddress
      | some currentAddress =>
        createLoop env req currentAddress fuel (distinctTiers req.items) env.existingOrderIds 0

/-- A staff document, as far as agent-name resolution reads it. -/
structure Staff where
  name : String
deriving DecidableEq, Repr

/-- The collaborators of `PUT /api/orders/:id`: the catalog, the staff
store, and `Slot.findOne({ slotType: 'Delivery' })` (the canonical
all-day delivery slot, if any). -/
structure UpdateEnv where
  catalog : ℕ → Option Service
  staff : ℕ → Option Staff
  deliverySlotLookup : Option ℕ

/-- The request body of `PUT /api/orders/:id`.  The outer `Option` is
presence of the key in the patch (`hasOwnProperty`); the inner
`Option`, where there is one, is a `null` versus a value. -/
structure UpdatePatch where
  pickupAgent : Option (Option ℕ) := none
  deliveryAgent : Option (Option ℕ) := none
  deliveryDate : Option (Option ℤ) := none
  deliverySlot : Option (Option ℕ) := none
  items : Option (List RawItem) := none
  billAmount : Option ℚ := none
  deliveryAddress : Option String := none
  deliverySociety : Option String := none
  deliveryPincode : Option String := none
  pickupDate : Option (Option ℤ) := none
  orderStatus : Option String := none
  paymentStatus : Option String := none
deriving DecidableEq, Repr

/-- The final `updateData` object handed to `findOneAndUpdate`, after
the route's transformations.  A `none` field is absent from the update
and leaves the stored value untouched; `deliveryAddress` and
`deliverySociety` are unconditionally deleted just before the write
and so have no slot here. -/
structure UpdateData where
  pickupAgent : Option (Option ℕ)
  pickupAgentName : Option (Option String)
  deliveryAgent : Option (Option ℕ)
  deliveryAgentName : Option (Option String)
  deliveryDate : Option (Option ℤ)
  deliverySlot : Option (Option ℕ)
  items : Option (List ProcessedItem)
  billAmount : Option ℚ
  expectedDeliveryDate : Option (Option ℤ)
  deliveryPincode : Option String
  pickupDate : Option (Option ℤ)
  orderStatus : Option String
  paymentStatus : Option String
deriving DecidableEq, Repr

/-- The agent-name resolution block, one per agent key:
`if (updateData.hasOwnProperty(key))` then, when the id is truthy,
`updateData.<key>Name = agent ? agent.name : null`, else
`updateData.<key>Name = null`; when the key is absent from the patch
the name field is not touched. -/
def agentNameFor (staff : ℕ → Option Staff) (patchValue : Option (Option ℕ)) :
    Option (Option String) :=
  match patchValue with
  | none => none
  | some (some agentId) =>
    some (match staff agentId with
          | some agent => some agent.name
          | none => none)
  | some none => some none

/-- The delivery-slot block: `if (updateData.deliveryDate)` assign the
canonical delivery slot when one exists (a missing canonical slot only
logs a warning, leaving the patch's own `deliverySlot` value, if any,
in place); the `else` branch sets `updateData.deliverySlot = null`
whenever `updateData.deliveryDate` is falsy — including when the patch
does not mention `deliveryDate` at all. -/
def deliverySlotFor (slotLookup : Option ℕ) (patch : UpdatePatch) : Option (Option ℕ) :=
  match patch.deliveryDate with
  | some (some _) =>
    match slotLookup with
    | some slotId => some (some slotId)
    | none => patch.deliverySlot
  | _ => some none

/-- The start date of the re-pricing branch:
`originalOrder.orderSource === 'Walk-in' ? originalOrder.orderedOn :
(updateData.pickupDate || originalOrder.pickupDate)`. -/
def repriceStartDate (originalOrder : OrderRecord) (patch : UpdatePatch) : Option ℤ :=
  if originalOrder.orderSource = "Walk-in" then some originalOrder.orderedOn
  else
    match patch.pickupDate with
    | some (some d) => some d
    | _ => originalOrder.pickupDate

/-- The shape of the final `updateData` object: the patch's own fields
plus the derived agent names and delivery slot; `items`, `billAmount`
and `expectedDeliveryDate` differ between the two branches below.
`deliveryAddress` and `deliverySociety` have been deleted. -/
def updateDataCore (env : UpdateEnv) (patch : UpdatePatch)
    (items : Option (List ProcessedItem)) (billAmount : Option ℚ)
    (expectedDeliveryDate : Option (Option ℤ)) : UpdateData :=
  { pickupAgent := patch.pickupAgent
    pickupAgentName := agentNameFor env.staff patch.pickupAgent
    deliveryAgent := patch.deliveryAgent
    deliveryAgentName := agentNameFor env.staff patch.deliveryAgent
    deliveryDate := patch.deliveryDate
    deliverySlot := deliverySlotFor env.deliverySlotLookup patch
    items := items
    billAmount := billAmount
    expectedDeliveryDate := expectedDeliveryDate
    deliveryPincode := patch.deliveryPincode
    pickupDate := patch.pickupDate
    orderStatus := patch.orderStatus
    paymentStatus := patch.paymentStatus }

/-- The body of `PUT /api/orders/:id` up to the write: agent-name
resolution, the delivery-slot rule, re-pricing when `items` is present
(which overwrites `billAmount` and recomputes `expectedDeliveryDate`),
and the deletion of `deliveryAddress` and `deliverySociety`.  A caller
`billAmount` in a patch without `items` survives to the write. -/
def computeUpdateData (env : UpdateEnv) (originalOrder : OrderRecord) (patch : UpdatePatch) :
    Except PriceError UpdateData :=
  match patch.items with
  | none => .ok (updateDataCore env patch none patch.billAmount none)
  | some rawItems =>
    match priceGroup env.catalog rawItems with
    | .error e => .error e
    | .ok (pis, bill) =>
      .ok (updateDataCore env patch (some pis) (some bill)
        (some (calculateExpectedDelivery env.catalog pis (repriceStartDate originalOrder patch))))

/-- The write `findOneAndUpdate({ orderId }, updateData)`: plain-object update
semantics — every key present in `updateData` overwrites the stored
field, every absent key leaves it unchanged. -/
def applyUpdateData (o : OrderRecord) (u : UpdateData) : OrderRecord :=
  { o with
    pickupAgent := u.pickupAgent.getD o.pickupAgent
    pickupAgentName := u.pickupAgentName.getD o.pickupAgentName
    deliveryAgent := u.deliveryAgent.getD o.deliveryAgent
    deliveryAgentName := u.deliveryAgentName.getD o.deliveryAgentName
    deliveryDate := u.deliveryDate.getD o.deliveryDate
    deliverySlot := u.deliverySlot.getD o.deliverySlot
    items := u.items.getD o.items
    billAmount := u.billAmount.getD o.billAmount
    expectedDeliveryDate := u.expectedDeliveryDate.getD o.expectedDeliveryDate
    deliveryPincode :=
      match u.deliveryPincode with
      | some v => some v
      | none => o.deliveryPincode
    pickupDate := u.pickupDate.getD o.pickupDate
    orderStatus := u.orderStatus.getD o.orderStatus
    paymentStatus := u.paymentStatus.getD o.paymentStatus }

/-- The route `PUT /api/orders/:id` after the order has been fetched: compute the
update data and apply it. -/
def updateOrder (env : UpdateEnv) (originalOrder : OrderRecord) (patch : UpdatePatch) :
    Except PriceError OrderRecord :=
  match computeUpdateData env originalOrder patch with
  | .error e => .error e
  | .ok u => .ok (applyUpdateData originalOrder u)

/-- Uppercase hexadecimal character. -/
def isUpperHexChar (c : Char) : Bool :=
  ('0' ≤ c && c ≤ '9') || ('A' ≤ c && c ≤ 'F')

/-- The documented order-identifier format: `WX-` followed by exactly
five uppercase hexadecimal characters. -/
def isWXId (s : String) : Prop :=
  ∃ rest : List Char, s.data = 'W' :: 'X' :: '-' :: rest ∧ rest.length = 5 ∧
    ∀ c ∈ rest, isUpperHexChar c = true

/-- The `min`/`required` constraints `orderSchema` places on a stored
line item: `weightInKg` and `pairCount` have `min: 0`, sub-item
`quantity` has `min: 1`; the price fields and `itemTotal` carry no
bound at all. -/
def itemPassesSchema (p : ProcessedItem) : Bool :=
  (match p.weightInKg with
   | some w => decide (0 ≤ w)
   | none => true) &&
  (match p.pairCount with
   | some c => decide (0 ≤ c)
   | none => true) &&
  p.subItems.all (fun s => decide (1 ≤ s.quantity))

/-- A `PerKg` catalog entry: base rate 80, default multipliers. -/
def washFoldService : Service :=
  { categoryName := "Wash and Fold"
    pricingModel := .PerKg
    pricePerKg := 80
    pricePerPair := 0
    subcategories := []
    standardTAT := "48 hours"
    expressTAT := some "24 hours"
    superfastTAT := some "12 hours" }

/-- A `PerItem` catalog entry with a single subcategory. -/
def ironService : Service :=
  { categoryName := "Ironing"
    pricingModel := .PerItem
    pricePerKg := 0
    pricePerPair := 0
    subcategories := [⟨"Shirt", 10⟩]
    standardTAT := "24"
    expressTAT := some "12"
    superfastTAT := none }

/-- A two-service catalog used by the concrete instances below. -/
def demoCatalog : ℕ → Option Service := fun i =>
  if i = 1 then some washFoldService else if i = 2 then some ironService else none

/-- The spec's worked example: Wash and Fold, 3 kg, Express, no
override. -/
def demoExpressItem : RawItem :=
  { serviceCategoryID := 1
    serviceType := .Express
    weightInKg := 3
    pairCount := 0
    pricePerKg := none
    pricePerPair := none
    subItems := [] }

/-- What the pricer produces for `demoExpressItem`. -/
def demoExpressPriced : ProcessedItem :=
  { serviceCategoryID := 1
    serviceType := .Express
    weightInKg := some 3
    pairCount := none
    pricePerKg := some 120
    pricePerPair := none
    subItems := []
    itemTotal := 360 }

/-- A Standard 2 kg Wash and Fold request. -/
def demoStandardItem : RawItem :=
  { serviceCategoryID := 1
    serviceType := .Standard
    weightInKg := 2
    pairCount := 0
    pricePerKg := none
    pricePerPair := none
    subItems := [] }

/-- A staff store with a single agent. -/
def demoStaffStore : ℕ → Option Staff := fun i =>
  if i = 5 then some ⟨"Asha"⟩ else none

/-- An update environment whose canonical all-day delivery slot is 42. -/
def demoUpdateEnv : UpdateEnv :=
  { catalog := demoCatalog, staff := demoStaffStore, deliverySlotLookup := some 42 }

/-- A stored line item whose total is 100. -/
def demoOrderItem : ProcessedItem :=
  { serviceCategoryID := 1
    serviceType := .Standard
    weightInKg := some 2
    pairCount := none
    pricePerKg := some 50
    pricePerPair := none
    subItems := []
    itemTotal := 100 }

/-- A persisted order used as the update target of the concrete
instances: bill 100 matching its one item, both agents assigned, a
delivery slot assigned. -/
def demoOrder : OrderRecord :=
  { orderId := "WX-AAAAA"
    customerID := 3
    deliveryAddress := "12 Lake Road"
    deliverySociety := "Green Meadows"
    deliveryPincode := some "110011"
    orderSource := "Call"
    items := [demoOrderItem]
    billAmount := 100
    orderStatus := "New"
    paymentStatus := "Pending"
    pickupDate := some 10
    pickupSlot := some 1
    pickupAgent := some 5
    pickupAgentName := some "Asha"
    deliveryDate := none
    expectedDeliveryDate := some 58
    deliverySlot := some 7
    deliveryAgent := some 5
    deliveryAgentName := some "Asha"
    orderedOn := 0 }

/-- A customer with one current address. -/
def demoCustomer : Customer :=
  { customerName := "Meera"
    addresses := [⟨"12 Lake Road", "Green Meadows", "110011", true⟩] }

/-- A creation environment: one customer with an address, one without,
one existing order id, a deterministic byte stream. -/
def demoCreateEnv : CreateEnv :=
  { catalog := demoCatalog
    customers := fun i =>
      if i = 3 then some demoCustomer else if i = 4 then some ⟨"Raj", []⟩ else none
    existingOrderIds := ["WX-AAAAA"]
    draws := fun k => (k, 0, 0)
    now := 100 }

/-- A creation environment with no customers at all. -/
def c10Env : CreateEnv :=
  { catalog := demoCatalog
    customers := fun _ => none
    existingOrderIds := []
    draws := fun k => (k, 0, 0)
    now := 0 }

/-- A two-tier submission: one Standard and one Express item. -/
def demoCreateReq : CreateRequest :=
  { customerID := 3, items := [demoStandardItem, demoExpressItem] }

theorem foldl_max_le_of_le {α : Type} (f : α → ℤ) (b : ℤ) :
    ∀ (l : List α) (init : ℤ), init ≤ b → (∀ x ∈ l, f x ≤ b) →
      l.foldl (fun acc x => max acc (f x)) init ≤ b := by
  intro l
  induction l with
  | nil => intro init h _; simpa using h
  | cons x xs ih =>
    intro init hinit hall
    simp only [List.foldl_cons]
    exact ih _ (max_le hinit (hall x (by simp))) (fun y hy => hall y (by simp [hy]))

theorem le_foldl_max {α : Type} (f : α → ℤ) :
    ∀ (l : List α) (init : ℤ), init ≤ l.foldl (fun acc x => max acc (f x)) init := by
  intro l
  induction l with
  | nil => intro init; simp
  | cons x xs ih =>
    intro init
    simp only [List.foldl_cons]
    exact le_trans (le_max_left _ _) (ih _)

theorem mem_le_foldl_max {α : Type} (f : α → ℤ) :
    ∀ (l : List α) (init : ℤ) (x : α), x ∈ l →
      f x ≤ l.foldl (fun acc y => max acc (f y)) init := by
  intro l
  induction l with
  | nil => intro init x hx; cases hx
  | cons y ys ih =>
    intro init x hx
    rcases List.mem_cons.mp hx with h | h
    · subst h
      simp only [List.foldl_cons]
      exact le_trans (le_max_right _ _) (le_foldl_max f ys _)
    · simp only [List.foldl_cons]
      exact ih _ x h

/-- C6: `calculateExpectedDelivery` returns `null` when the start
instant is absent, when the item list is empty, and when no item
yields a parseable positive TAT (non-numeric, missing, or
missing-service TAT strings contribute 0 hours); otherwise it returns
the start instant plus the running maximum of the per-item TAT hours,
each resolved by the item's tier. -/
theorem c6_calculateExpectedDelivery (catalog : ℕ → Option Service)
    (items : List ProcessedItem) (start : ℤ) :
    calculateExpectedDelivery catalog items none = none ∧
    calculateExpectedDelivery catalog [] (some start) = none ∧
    ((∀ it ∈ items, itemTatHours catalog it ≤ 0) →
      calculateExpectedDelivery catalog items (some start) = none) ∧
    ((∃ it ∈ items, 0 < itemTatHours catalog it) →
      calculateExpectedDelivery catalog items (some start)
        = some (start + items.foldl (fun acc it => max acc (itemTatHours catalog it)) 0)) := by
  refine ⟨rfl, rfl, ?_, ?_⟩
  · intro hall
    simp only [calculateExpectedDelivery]
    have hle : items.foldl (fun acc it => max acc (itemTatHours catalog it)) 0 ≤ 0 :=
      foldl_max_le_of_le _ 0 items 0 le_rfl hall
    simp [not_lt.mpr hle]
  · rintro ⟨it, hmem, hpos⟩
    simp only [calculateExpectedDelivery]
    have hlt : 0 < items.foldl (fun acc it => max acc (itemTatHours catalog it)) 0 :=
      lt_of_lt_of_le hpos (mem_le_foldl_max _ items 0 it hmem)
    simp [hlt]

/-- C6 witness: one Express Wash and Fold item with a 24-hour express
TAT, start instant 100, gives 100 + 24. -/
theorem c6_witness :
    calculateExpectedDelivery demoCatalog [demoExpressPriced] (some 100) = some 124 := by
  have h := (c6_calculateExpectedDelivery demoCatalog [demoExpressPriced] 100).2.2.2
    ⟨demoExpressPriced, by simp, by decide⟩
  exact h.trans (by decide)

theorem computeUpdateData_eq_none (env : UpdateEnv) (ord : OrderRecord) (p : UpdatePatch)
    (hpi : p.items = none) :
    computeUpdateData env ord p = .ok (updateDataCore env p none p.billAmount none) := by
  unfold computeUpdateData
  rw [hpi]

theorem computeUpdateData_eq_some (env : UpdateEnv) (ord : OrderRecord) (p : UpdatePatch)
    (raws : List RawItem) (hpi : p.items = some raws) :
    computeUpdateData env ord p =
      match priceGroup env.catalog raws with
      | .error e => .error e
      | .ok (pis, bill) =>
        .ok (updateDataCore env p (some pis) (some bill)
          (some (calculateExpectedDelivery env.catalog pis (repriceStartDate ord p)))) := by
  unfold computeUpdateData
  rw [hpi]

theorem updateOrder_ok_shape (env : UpdateEnv) (ord : OrderRecord) (p : UpdatePatch)
    (o' : OrderRecord) (h : updateOrder env ord p = .ok o') :
    ∃ items bill edd,
      o' = applyUpdateData ord (updateDataCore env p items bill edd) ∧
      ((p.items = none ∧ items = none ∧ bill = p.billAmount ∧ edd = none) ∨
       (∃ raws pis b, p.items = some raws ∧ priceGroup env.catalog raws = .ok (pis, b) ∧
          items = some pis ∧ bill = some b ∧
          edd = some (calculateExpectedDelivery env.catalog pis (repriceStartDate ord p)))) := by
  unfold updateOrder at h
  cases hpi : p.items with
  | none =>
    simp only [computeUpdateData_eq_none env ord p hpi, Except.ok.injEq] at h
    exact ⟨none, p.billAmount, none, h.symm, Or.inl ⟨rfl, rfl, rfl, rfl⟩⟩
  | some raws =>
    simp only [computeUpdateData_eq_some env ord p raws hpi] at h
    cases hpg : priceGroup env.catalog raws with
    | error e => simp [hpg] at h
    | ok pr =>
      obtain ⟨pis, bill⟩ := pr
      simp only [hpg, Except.ok.injEq] at h
      exact ⟨some pis, some bill, _, h.symm,
        Or.inr ⟨raws, pis, bill, rfl, hpg, rfl, rfl, rfl⟩⟩

/-- C8 (confirmed): when an update patch contains the `deliveryAgent`
key, the resulting order's `deliveryAgent` is the patch value and
`deliveryAgentName` is the resolved agent's name — null when the id is
null or cannot be resolved — and, when the patch does not mention
`pickupAgent`, the pickup agent fields are unchanged; symmetrically
for `pickupAgent`. -/
theorem c8_agent_name_sync (env : UpdateEnv) (ord : OrderRecord) (p : UpdatePatch)
    (o' : OrderRecord) (h : updateOrder env ord p = .ok o') :
    (∀ idOpt, p.deliveryAgent = some idOpt →
      o'.deliveryAgent = idOpt ∧
      o'.deliveryAgentName = (match idOpt with
        | some i => (env.staff i).map Staff.name
        | none => none) ∧
      (p.pickupAgent = none →
        o'.pickupAgent = ord.pickupAgent ∧ o'.pickupAgentName = ord.pickupAgentName)) ∧
    (∀ idOpt, p.pickupAgent = some idOpt →
      o'.pickupAgent = idOpt ∧
      o'.pickupAgentName = (match idOpt with
        | some i => (env.staff i).map Staff.name
        | none => none) ∧
      (p.deliveryAgent = none →
        o'.deliveryAgent = ord.deliveryAgent ∧ o'.deliveryAgentName = ord.deliveryAgentName)) := by
  obtain ⟨it, bi, ed, rfl, -⟩ := updateOrder_ok_shape env ord p o' h
  constructor
  · intro idOpt hda
    refine ⟨by simp [applyUpdateData, updateDataCore, hda], ?_, ?_⟩
    · cases idOpt with
      | none => simp [applyUpdateData, updateDataCore, agentNameFor, hda]
      | some i =>
        cases hs : env.staff i <;>
          simp [applyUpdateData, updateDataCore, agentNameFor, hda, hs]
    · intro hpa
      constructor <;> simp [applyUpdateData, updateDataCore, agentNameFor, hpa]
  · intro idOpt hpa
    refine ⟨by simp [applyUpdateData, updateDataCore, hpa], ?_, ?_⟩
    · cases idOpt with
      | none => simp [applyUpdateData, updateDataCore, agentNameFor, hpa]
      | some i =>
        cases hs : env.staff i <;>
          simp [applyUpdateData, updateDataCore, agentNameFor, hpa, hs]
    · intro hda
      constructor <;> simp [applyUpdateData, updateDataCore, agentNameFor, hda]

/-- C8 witness: updating `deliveryAgent` to null on an order with both
agents assigned clears `deliveryAgentName` and leaves the pickup agent
fields intact. -/
theorem c8_witness :
    ∃ o', updateOrder demoUpdateEnv demoOrder { deliveryAgent := some none } = .ok o' ∧
      o'.deliveryAgent = none ∧ o'.deliveryAgentName = none ∧
      o'.pickupAgent = demoOrder.pickupAgent ∧
      o'.pickupAgentName = demoOrder.pickupAgentName := by
  refine ⟨_, rfl, ?_⟩
  obtain ⟨hd, -⟩ :=
    c8_agent_name_sync demoUpdateEnv demoOrder { deliveryAgent := some none } _ rfl
  obtain ⟨hid, hname, hframe⟩ := hd none rfl
  exact ⟨hid, hname, (hframe rfl).1, (hframe rfl).2⟩

/-- C7 counterexample: the claim says the pincode snapshot field is
immutable under updates, but a patch carrying `deliveryPincode`
changes it — only `deliveryAddress` and `deliverySociety` are
stripped. -/
theorem c7_counterexample :
    (updateOrder demoUpdateEnv demoOrder { deliveryPincode := some "999999" }).toOption.map
        OrderRecord.deliveryPincode = some (some "999999") ∧
    demoOrder.deliveryPincode = some "110011" := by
  exact ⟨rfl, rfl⟩

/-- C7 (amended): an order update never changes the address text or
society-name snapshot fields — patch values for them are stripped —
but `deliveryPincode` is not stripped: it is overwritten exactly when
the patch carries it, and preserved otherwise. -/
theorem c7_address_snapshot (env : UpdateEnv) (ord : OrderRecord) (p : UpdatePatch)
    (o' : OrderRecord) (h : updateOrder env ord p = .ok o') :
    o'.deliveryAddress = ord.deliveryAddress ∧
    o'.deliverySociety = ord.deliverySociety ∧
    o'.deliveryPincode = (match p.deliveryPincode with
      | some v => some v
      | none => ord.deliveryPincode) := by
  obtain ⟨it, bi, ed, rfl, -⟩ := updateOrder_ok_shape env ord p o' h
  refine ⟨rfl, rfl, ?_⟩
  cases hp : p.deliveryPincode <;> simp [applyUpdateData, updateDataCore, hp]

/-- C7 witness: an empty patch leaves all three snapshot fields
unchanged. -/
theorem c7_witness :
    ∃ o', updateOrder demoUpdateEnv demoOrder {} = .ok o' ∧
      o'.deliveryAddress = demoOrder.deliveryAddress ∧
      o'.deliverySociety = demoOrder.deliverySociety ∧
      o'.deliveryPincode = demoOrder.deliveryPincode := by
  refine ⟨_, rfl, ?_⟩
  have h := c7_address_snapshot demoUpdateEnv demoOrder {} _ rfl
  exact ⟨h.1, h.2.1, h.2.2⟩

/-- C3 counterexample: the claim says a patch without `deliveryDate`
leaves `deliverySlot` unchanged, but updating only `paymentStatus`
clears the slot of an order that had slot 7 assigned. -/
theorem c3_counterexample :
    (updateOrder demoUpdateEnv demoOrder { paymentStatus := some "Confirmed" }).toOption.map
        OrderRecord.deliverySlot = some none ∧
    demoOrder.deliverySlot = some 7 := by
  exact ⟨rfl, rfl⟩

/-- C3 (amended): if the patch has a non-null `deliveryDate`, the
canonical all-day delivery slot is assigned when one exists — when the
lookup finds none the patch's own `deliverySlot` value (or, failing
that, the stored slot) is what remains; in every other case —
`deliveryDate` null or absent from the patch — the order's
`deliverySlot` is cleared to null. -/
theorem c3_delivery_slot (env : UpdateEnv) (ord : OrderRecord) (p : UpdatePatch)
    (o' : OrderRecord) (h : updateOrder env ord p = .ok o') :
    ((∃ d, p.deliveryDate = some (some d)) →
      o'.deliverySlot = (match env.deliverySlotLookup with
        | some slotId => some slotId
        | none => p.deliverySlot.getD ord.deliverySlot)) ∧
    ((p.deliveryDate = none ∨ p.deliveryDate = some none) → o'.deliverySlot = none) := by
  obtain ⟨it, bi, ed, rfl, -⟩ := updateOrder_ok_shape env ord p o' h
  constructor
  · rintro ⟨d, hd⟩
    cases hsl : env.deliverySlotLookup with
    | some s => simp [applyUpdateData, updateDataCore, deliverySlotFor, hd, hsl]
    | none =>
      cases hds : p.deliverySlot <;>
        simp [applyUpdateData, updateDataCore, deliverySlotFor, hd, hsl, hds]
  · rintro (hd | hd) <;> simp [applyUpdateData, updateDataCore, deliverySlotFor, hd]

/-- C3 witness: patching a non-null `deliveryDate` assigns the
canonical all-day delivery slot (42 in the demo environment). -/
theorem c3_witness :
    ∃ o', updateOrder demoUpdateEnv demoOrder { deliveryDate := some (some 500) } = .ok o' ∧
      o'.deliverySlot = some 42 := by
  refine ⟨_, rfl, ?_⟩
  have h :=
    (c3_delivery_slot demoUpdateEnv demoOrder { deliveryDate := some (some 500) } _ rfl).1
      ⟨500, rfl⟩
  exact h

theorem priceItem_serviceType (catalog : ℕ → Option Service) (item : RawItem)
    (p : ProcessedItem) (h : priceItem catalog item = .ok p) :
    p.serviceType = item.serviceType := by
  unfold priceItem at h
  split at h
  · cases h
  · split at h
    · injection h with h
      subst h
      rfl
    · injection h with h
      subst h
      rfl
    · simp only [] at h
      split at h
      · cases h
      · injection h with h
        subst h
        rfl

theorem priceGroup_ok_spec (catalog : ℕ → Option Service) :
    ∀ (raws : List RawItem) (pis : List ProcessedItem) (bill : ℚ),
      priceGroup catalog raws = .ok (pis, bill) →
      bill = (pis.map ProcessedItem.itemTotal).sum ∧
      pis.map ProcessedItem.serviceType = raws.map RawItem.serviceType := by
  intro raws
  induction raws with
  | nil =>
    intro pis bill h
    unfold priceGroup at h
    injection h with h
    obtain ⟨h1, h2⟩ := Prod.mk.injEq .. |>.mp h.symm
    subst h1
    subst h2
    simp
  | cons item rest ih =>
    intro pis bill h
    unfold priceGroup at h
    split at h
    · cases h
    next p hpi =>
      split at h
      · cases h
      next ps restBill hrest =>
        injection h with h
        obtain ⟨h1, h2⟩ := Prod.mk.injEq .. |>.mp h
        subst h1
        subst h2
        obtain ⟨hsum, htypes⟩ := ih ps restBill hrest
        refine ⟨by simp [hsum], ?_⟩
        simp [htypes, priceItem_serviceType catalog item p hpi]

theorem generateOrderIdAux_ok (draws : ℕ → ℕ × ℕ × ℕ) (existing : List String) :
    ∀ (fuel k : ℕ) (oid : String) (k' : ℕ),
      generateOrderIdAux draws existing k fuel = some (oid, k') →
      oid ∉ existing ∧ ∃ b, oid = "WX-" ++ codeOfBytes b := by
  intro fuel
  induction fuel with
  | zero =>
    intro k oid k' h
    cases h
  | succ n ih =>
    intro k oid k' h
    simp only [generateOrderIdAux] at h
    split at h
    · exact ih (k + 1) oid k' h
    next hnot =>
      injection h with h
      obtain ⟨h1, h2⟩ := Prod.mk.injEq .. |>.mp h
      subst h1
      exact ⟨hnot, ⟨draws k, rfl⟩⟩

theorem hexUpper_of_lt16 : ∀ n < 16, isUpperHexChar (Char.toUpper (hexDigitChar n)) = true := by
  decide

theorem isWXId_wx_code (b : ℕ × ℕ × ℕ) : isWXId ("WX-" ++ codeOfBytes b) := by
  obtain ⟨b1, b2, b3⟩ := b
  refine ⟨((byteToHexChars b1 ++ byteToHexChars b2 ++ byteToHexChars b3).take 5).map
    Char.toUpper, ?_, ?_, ?_⟩
  · rw [String.data_append]
    rfl
  · rfl
  · intro c hc
    simp only [byteToHexChars, List.cons_append, List.nil_append, List.take, List.map,
      List.mem_cons, List.not_mem_nil, or_false] at hc
    have h16 : ∀ x : ℕ, x % 16 < 16 := fun x => Nat.mod_lt _ (by norm_num)
    rcases hc with rfl | rfl | rfl | rfl | rfl
    · exact hexUpper_of_lt16 _ (h16 _)
    · exact hexUpper_of_lt16 _ (h16 _)
    · exact hexUpper_of_lt16 _ (h16 _)
    · exact hexUpper_of_lt16 _ (h16 _)
    · exact hexUpper_of_lt16 _ (h16 _)

theorem distinctTiers_go_nodup :
    ∀ (items : List RawItem) (acc : List ServiceTier), acc.Nodup →
      (items.foldl (fun acc it =>
        if it.serviceType ∈ acc then acc else acc ++ [it.serviceType]) acc).Nodup := by
  intro items
  induction items with
  | nil => intro acc h; exact h
  | cons x rest ih =>
    intro acc h
    simp only [List.foldl_cons]
    by_cases hmem : x.serviceType ∈ acc
    · simpa [hmem] using ih acc h
    · have hacc : (acc ++ [x.serviceType]).Nodup := by
        simp [List.nodup_append, h, hmem]
      simpa [hmem] using ih (acc ++ [x.serviceType]) hacc

theorem distinctTiers_nodup (items : List RawItem) : (distinctTiers items).Nodup :=
  distinctTiers_go_nodup items [] List.nodup_nil

theorem distinctTiers_go_mem :
    ∀ (items : List RawItem) (acc : List ServiceTier) (t : ServiceTier),
      t ∈ items.foldl (fun acc it =>
        if it.serviceType ∈ acc then acc else acc ++ [it.serviceType]) acc ↔
      t ∈ acc ∨ ∃ it ∈ items, it.serviceType = t := by
  intro items
  induction items with
  | nil => intro acc t; simp
  | cons x rest ih =>
    intro acc t
    simp only [List.foldl_cons]
    by_cases hmem : x.serviceType ∈ acc
    · rw [if_pos hmem, ih]
      constructor
      · rintro (h | h)
        · exact Or.inl h
        · exact Or.inr ⟨_, by simp [h.choose_spec.1], h.choose_spec.2⟩
      · rintro (h | ⟨it, hit, rfl⟩)
        · exact Or.inl h
        · rcases List.mem_cons.mp hit with rfl | hit
          · exact Or.inl hmem
          · exact Or.inr ⟨it, hit, rfl⟩
    · rw [if_neg hmem, ih]
      constructor
      · rintro (h | h)
        · rcases List.mem_append.mp h with h | h
          · exact Or.inl h
          · exact Or.inr ⟨x, by simp, (List.mem_singleton.mp h).symm⟩
        · exact Or.inr ⟨_, by simp [h.choose_spec.1], h.choose_spec.2⟩
      · rintro (h | ⟨it, hit, rfl⟩)
        · exact Or.inl (List.mem_append_left _ h)
        · rcases List.mem_cons.mp hit with rfl | hit
          · exact Or.inl (List.mem_append_right _ (by simp))
          · exact Or.inr ⟨it, hit, rfl⟩

theorem distinctTiers_mem (items : List RawItem) (t : ServiceTier) :
    t ∈ distinctTiers items ↔ ∃ it ∈ items, it.serviceType = t := by
  rw [distinctTiers, distinctTiers_go_mem]
  simp

theorem forall₂_mem_right {α β : Type} {R : α → β → Prop} :
    ∀ {l1 : List α} {l2 : List β}, List.Forall₂ R l1 l2 → ∀ b ∈ l2, ∃ a ∈ l1, R a b := by
  intro l1 l2 h
  induction h with
  | nil => intro b hb; cases hb
  | cons hr _ ih =>
    intro b hb
    rcases List.mem_cons.mp hb with rfl | hb
    · exact ⟨_, by simp, hr⟩
    · obtain ⟨a, ha, har⟩ := ih b hb
      exact ⟨a, by simp [ha], har⟩

theorem createLoop_ok_spec (env : CreateEnv) (req : CreateRequest) (addr : Address) (fuel : ℕ) :
    ∀ (tiers : List ServiceTier) (existing : List String) (drawIdx : ℕ)
      (orders : List OrderRecord),
      createLoop env req addr fuel tiers existing drawIdx = .ok orders →
      List.Forall₂ (fun tier o =>
        priceGroup env.catalog (req.items.filter (fun it => it.serviceType == tier))
          = .ok (o.items, o.billAmount)) tiers orders ∧
      (∀ o ∈ orders, o.orderId ∉ existing ∧ ∃ b, o.orderId = "WX-" ++ codeOfBytes b) ∧
      (orders.map OrderRecord.orderId).Nodup := by
  intro tiers
  induction tiers with
  | nil =>
    intro existing drawIdx orders h
    simp only [createLoop] at h
    injection h with h
    subst h
    exact ⟨List.Forall₂.nil, by simp, by simp⟩
  | cons tier rest ih =>
    intro existing drawIdx orders h
    simp only [createLoop] at h
    split at h
    · cases h
    next pis bill hpg =>
      split at h
      · cases h
      next oid drawIdx' hgen =>
        split at h
        · cases h
        next rorders hrest =>
          injection h with h
          subst h
          obtain ⟨hfa, hids, hnd⟩ := ih (existing ++ [oid]) drawIdx' rorders hrest
          obtain ⟨hfresh, hform⟩ :=
            generateOrderIdAux_ok env.draws existing fuel drawIdx oid drawIdx' hgen
          refine ⟨List.Forall₂.cons hpg hfa, ?_, ?_⟩
          · intro o ho
            rcases List.mem_cons.mp ho with rfl | ho
            · exact ⟨hfresh, hform⟩
            · obtain ⟨h1, h2⟩ := hids o ho
              exact ⟨fun hmem => h1 (List.mem_append_left _ hmem), h2⟩
          · simp only [List.map_cons]
            rw [List.nodup_cons]
            refine ⟨?_, hnd⟩
            intro hmem
            obtain ⟨o, ho, hoid⟩ := List.mem_map.mp hmem
            exact (hids o ho).1
              (by rw [hoid]; exact List.mem_append_right _ (List.mem_singleton.mpr rfl))

theorem createOrders_ok_shape (env : CreateEnv) (req : CreateRequest) (fuel : ℕ)
    (orders : List OrderRecord) (h : createOrders env req fuel = .ok orders) :
    ∃ customer currentAddress,
      req.items.isEmpty = false ∧
      env.customers req.customerID = some customer ∧
      (customer.addresses.find? (fun a => a.isCurrent) <|> customer.addresses.head?)
        = some currentAddress ∧
      createLoop env req currentAddress fuel (distinctTiers req.items)
        env.existingOrderIds 0 = .ok orders := by
  unfold createOrders at h
  split at h
  · cases h
  next hne =>
    split at h
    · cases h
    next customer hc =>
      split at h
      · cases h
      next addr ha =>
        exact ⟨customer, addr, by simpa using hne, hc, ha, h⟩

/-- C5 (confirmed): a submission spanning several tiers creates one
order per distinct tier, in encounter order of each tier's first item
(the `distinctTiers` list), each order priced from exactly the
submitted items of its tier (so all its stored items carry that tier),
and each order carries a `WX-` + 5-uppercase-hex identifier that no
pre-existing order holds, all created ids pairwise distinct. -/
theorem c5_tier_fanout (env : CreateEnv) (req : CreateRequest) (fuel : ℕ)
    (orders : List OrderRecord) (h : createOrders env req fuel = .ok orders) :
    (distinctTiers req.items).Nodup ∧
    (∀ t, t ∈ distinctTiers req.items ↔ ∃ it ∈ req.items, it.serviceType = t) ∧
    orders.length = (distinctTiers req.items).length ∧
    List.Forall₂ (fun tier o =>
      priceGroup env.catalog (req.items.filter (fun it => it.serviceType == tier))
        = .ok (o.items, o.billAmount) ∧
      ∀ pi ∈ o.items, pi.serviceType = tier) (distinctTiers req.items) orders ∧
    (∀ o ∈ orders, o.orderId ∉ env.existingOrderIds ∧ isWXId o.orderId) ∧
    (orders.map OrderRecord.orderId).Nodup := by
  obtain ⟨customer, addr, -, -, -, hloop⟩ := createOrders_ok_shape env req fuel orders h
  obtain ⟨hfa, hids, hnd⟩ := createLoop_ok_spec env req addr fuel _ _ _ orders hloop
  refine ⟨distinctTiers_nodup req.items, fun t => distinctTiers_mem req.items t,
    (List.Forall₂.length_eq hfa).symm, ?_, ?_, hnd⟩
  · refine List.Forall₂.imp ?_ hfa
    intro tier o hr
    refine ⟨hr, ?_⟩
    obtain ⟨-, htypes⟩ := priceGroup_ok_spec env.catalog _ _ _ hr
    intro pi hpi
    have hmem : pi.serviceType ∈ o.items.map ProcessedItem.serviceType :=
      List.mem_map_of_mem _ hpi
    rw [htypes] at hmem
    obtain ⟨r, hr2, hst⟩ := List.mem_map.mp hmem
    rw [← hst]
    exact eq_of_beq (List.mem_filter.mp hr2).2
  · intro o ho
    obtain ⟨h1, b, hform⟩ := hids o ho
    exact ⟨h1, hform ▸ isWXId_wx_code b⟩

/-- C5 witness: the two-tier demo submission yields two orders with
fresh, well-formed, distinct identifiers. -/
theorem c5_witness :
    ∃ orders, createOrders demoCreateEnv demoCreateReq 1 = .ok orders ∧
      orders.length = (distinctTiers demoCreateReq.items).length ∧
      (∀ o ∈ orders, o.orderId ∉ demoCreateEnv.existingOrderIds ∧ isWXId o.orderId) ∧
      (orders.map OrderRecord.orderId).Nodup := by
  have h := c5_tier_fanout demoCreateEnv demoCreateReq 1 _ rfl
  exact ⟨_, rfl, h.2.2.1, h.2.2.2.2.1, h.2.2.2.2.2⟩

theorem createLoop_req_congr (env : CreateEnv) (req req2 : CreateRequest) (fuel : ℕ)
    (hitems : req2.items = req.items)
    (hbuild : ∀ addr oid pis bill, buildCreatedOrder env req2 addr oid pis bill
        = buildCreatedOrder env req addr oid pis bill) :
    ∀ (tiers : List ServiceTier) (addr : Address) (existing : List String) (drawIdx : ℕ),
      createLoop env req2 addr fuel tiers existing drawIdx
        = createLoop env req addr fuel tiers existing drawIdx := by
  intro tiers
  induction tiers with
  | nil => intro addr existing drawIdx; rfl
  | cons tier rest ih =>
    intro addr existing drawIdx
    simp only [createLoop, hitems, hbuild, ih]

theorem createOrders_billAmount_congr (env : CreateEnv) (req : CreateRequest) (fuel : ℕ)
    (v : Option ℚ) :
    createOrders env { req with billAmount := v } fuel = createOrders env req fuel := by
  have hitems : ({ req with billAmount := v } : CreateRequest).items = req.items := rfl
  have hcust : ({ req with billAmount := v } : CreateRequest).customerID = req.customerID := rfl
  have hloop := createLoop_req_congr env req { req with billAmount := v } fuel rfl
    (fun _ _ _ _ => rfl)
  unfold createOrders
  rw [hitems, hcust]
  split
  · rfl
  · split
    · rfl
    · split
      · rfl
      · exact hloop _ _ _ _

/-- C1 counterexample: the claim says no caller-supplied `billAmount`
is ever written, but an update patch that carries `billAmount` and no
`items` writes the caller value, breaking the bill-equals-sum
invariant (the demo order's items sum to 100). -/
theorem c1_counterexample :
    (updateOrder demoUpdateEnv demoOrder { billAmount := some 999 }).toOption.map
        (fun o => (o.billAmount, (o.items.map ProcessedItem.itemTotal).sum))
      = some (999, (demoOrder.items.map ProcessedItem.itemTotal).sum) ∧
    (999 : ℚ) ≠ (demoOrder.items.map ProcessedItem.itemTotal).sum := by
  refine ⟨rfl, by norm_num [demoOrder, demoOrderItem]⟩

/-- C1 (amended): `billAmount` is recomputed as the sum of the priced
items' totals on every create and on every item-carrying update, and
the create path ignores a caller-supplied `billAmount` entirely; but
an update patch without `items` leaves `billAmount` untouched only
when the patch does not carry a `billAmount` of its own (a stray
caller `billAmount` in an item-less patch is written as-is). -/
theorem c1_billAmount (envC : CreateEnv) (req : CreateRequest) (fuel : ℕ)
    (orders : List OrderRecord) (envU : UpdateEnv)
    (ordA : OrderRecord) (pA : UpdatePatch) (oA : OrderRecord)
    (ordB : OrderRecord) (pB : UpdatePatch) (oB : OrderRecord)
    (hcreate : createOrders envC req fuel = .ok orders)
    (hupA : updateOrder envU ordA pA = .ok oA) (hA : pA.items.isSome = true)
    (hupB : updateOrder envU ordB pB = .ok oB) (hBitems : pB.items = none)
    (hBbill : pB.billAmount = none) :
    (∀ o ∈ orders, o.billAmount = (o.items.map ProcessedItem.itemTotal).sum) ∧
    (∀ v, createOrders envC { req with billAmount := v } fuel = createOrders envC req fuel) ∧
    oA.billAmount = (oA.items.map ProcessedItem.itemTotal).sum ∧
    oB.billAmount = ordB.billAmount := by
  refine ⟨?_, fun v => createOrders_billAmount_congr envC req fuel v, ?_, ?_⟩
  · intro o ho
    obtain ⟨customer, addr, -, -, -, hloop⟩ := createOrders_ok_shape envC req fuel orders hcreate
    obtain ⟨hfa, -, -⟩ := createLoop_ok_spec envC req addr fuel _ _ _ orders hloop
    obtain ⟨tier, -, hrel⟩ := forall₂_mem_right hfa o ho
    exact (priceGroup_ok_spec envC.catalog _ _ _ hrel).1
  · obtain ⟨it, bi, ed, rfl, hdis⟩ := updateOrder_ok_shape envU ordA pA oA hupA
    rcases hdis with ⟨hnone, -, -, -⟩ | ⟨raws, pis, b, -, hpg, hit, hbi, -⟩
    · rw [hnone] at hA
      cases hA
    · subst hit
      subst hbi
      have hsum := (priceGroup_ok_spec envU.catalog _ _ _ hpg).1
      simpa [applyUpdateData, updateDataCore] using hsum
  · obtain ⟨it, bi, ed, rfl, hdis⟩ := updateOrder_ok_shape envU ordB pB oB hupB
    rcases hdis with ⟨-, hit, hbi, -⟩ | ⟨raws, pis, b, hsome, -⟩
    · subst hit
      subst hbi
      simp [applyUpdateData, updateDataCore, hBbill]
    · rw [hsome] at hBitems
      cases hBitems

/-- C1 witness: the two-tier demo creation and two demo updates — one
re-pricing patch, one pure status patch — all keep `billAmount` equal
to the sum of the stored item totals. -/
theorem c1_witness :
    ∃ orders oA oB,
      createOrders demoCreateEnv demoCreateReq 1 = .ok orders ∧
      updateOrder demoUpdateEnv demoOrder { items := some [demoStandardItem] } = .ok oA ∧
      updateOrder demoUpdateEnv demoOrder { orderStatus := some "In-Progress" } = .ok oB ∧
      (∀ o ∈ orders, o.billAmount = (o.items.map ProcessedItem.itemTotal).sum) ∧
      oA.billAmount = (oA.items.map ProcessedItem.itemTotal).sum ∧
      oB.billAmount = demoOrder.billAmount := by
  obtain ⟨h1, h2, h3, h4⟩ := c1_billAmount demoCreateEnv demoCreateReq 1 _ demoUpdateEnv
    demoOrder { items := some [demoStandardItem] } _ demoOrder
    { orderStatus := some "In-Progress" } _ rfl rfl rfl rfl rfl rfl
  exact ⟨_, _, _, rfl, rfl, rfl, h1, h3, h4⟩

/-- C10 counterexample: for a request naming an absent customer with
an empty item list the route reports the empty-order failure, not
`CustomerNotFound` — the empty-items check runs first. -/
theorem c10_counterexample :
    createOrders c10Env { customerID := 99, items := [] } 1 = .error .emptyOrder ∧
    CreateError.emptyOrder ≠ CreateError.customerNotFound := by
  exact ⟨rfl, by decide⟩

/-- C10 (amended): order creation checks its preconditions in source
order — empty item list first, then the customer fetch, then the
current-address selection — so an absent customer is only reported
when the item list is non-empty, and a missing address only when the
customer exists. -/
theorem c10_precondition_order (env : CreateEnv) (req : CreateRequest) (fuel : ℕ) :
    (req.items = [] → createOrders env req fuel = .error .emptyOrder) ∧
    (req.items ≠ [] → env.customers req.customerID = none →
      createOrders env req fuel = .error .customerNotFound) ∧
    (∀ customer, req.items ≠ [] → env.customers req.customerID = some customer →
      customer.addresses = [] → createOrders env req fuel = .error .noAddress) := by
  refine ⟨?_, ?_, ?_⟩
  · intro hi
    unfold createOrders
    rw [if_pos (by simp [hi])]
  · intro hi hc
    unfold createOrders
    rw [if_neg (by simp [hi]), hc]
  · intro customer hi hc ha
    unfold createOrders
    rw [if_neg (by simp [hi]), hc]
    simp [ha]

/-- C10 witness: the three precondition failures at concrete inputs,
in source order. -/
theorem c10_witness :
    createOrders c10Env { customerID := 99, items := [] } 2 = .error .emptyOrder ∧
    createOrders c10Env { customerID := 99, items := [demoStandardItem] } 2
      = .error .customerNotFound ∧
    createOrders demoCreateEnv { customerID := 4, items := [demoStandardItem] } 2
      = .error .noAddress := by
  refine ⟨?_, ?_, ?_⟩
  · exact (c10_precondition_order c10Env { customerID := 99, items := [] } 2).1 rfl
  · exact (c10_precondition_order c10Env
      { customerID := 99, items := [demoStandardItem] } 2).2.1 (by decide) rfl
  · exact (c10_precondition_order demoCreateEnv
      { customerID := 4, items := [demoStandardItem] } 2).2.2 ⟨"Raj", []⟩ (by decide) rfl rfl

/-- The spec's multiplier table, written from the spec's words:
multiplier(Standard) = 1, multiplier(Express) = expressMultiplier,
multiplier(Superfast) = superfastMultiplier, with the catalog defaults
1.5 and 2 applied when the stored multiplier is absent/falsy. -/
def specTierMultiplier (service : Service) (tier : ServiceTier) : ℚ :=
  match tier with
  | .Standard => 1
  | .Express =>
    if service.expressPriceMultiplier = 0 then 3/2 else service.expressPriceMultiplier
  | .Superfast =>
    if service.superfastPriceMultiplier = 0 then 2 else service.superfastPriceMultiplier

theorem tierMultiplier_eq_spec (service : Service) (tier : ServiceTier) :
    tierMultiplier service tier = specTierMultiplier service tier := by
  cases tier <;> rfl

/-- C2 counterexample: the claim says the unit price is the
caller-supplied override whenever one is supplied, but a supplied
override of `0` is falsy and the code falls back to the catalog rate:
the 3 kg Express item with override 0 is priced 3 × (80 × 1.5), not
3 × 0. -/
theorem c2_counterexample :
    (priceItem demoCatalog { demoExpressItem with pricePerKg := some 0 }).toOption.map
        ProcessedItem.itemTotal = some ((3 : ℚ) * (80 * (3/2))) ∧
    (3 : ℚ) * (80 * (3/2)) ≠ 3 * 0 := by
  constructor
  · norm_num [priceItem, demoCatalog, washFoldService, demoExpressItem, tierMultiplier,
      jsOrOptQ, jsOrQ, Except.toOption]
  · norm_num

/-- C2 (amended): for every `PerKg` item the pricer accepts, itemTotal
= weight × unit price where the unit price is the caller override when
one is supplied and non-zero, and otherwise the catalog base rate
times the spec's tier multiplier (a zero override is falsy in JS and
falls back to the catalog price); analogously for `PerPair` items with
the per-pair rate.  On the spec's example — base 80, express
multiplier 1.5, weight 3, Express, no override — this yields 360. -/
theorem c2_unit_pricing (catalog : ℕ → Option Service) (service : Service) (item : RawItem)
    (p : ProcessedItem) (hsvc : catalog item.serviceCategoryID = some service)
    (hok : priceItem catalog item = .ok p) :
    (service.pricingModel = .PerKg →
      p.itemTotal = item.weightInKg *
        (match item.pricePerKg with
         | some ov =>
           if ov = 0 then service.pricePerKg * specTierMultiplier service item.serviceType
           else ov
         | none => service.pricePerKg * specTierMultiplier service item.serviceType)) ∧
    (service.pricingModel = .PerPair →
      p.itemTotal = item.pairCount *
        (match item.pricePerPair with
         | some ov =>
           if ov = 0 then service.pricePerPair * specTierMultiplier service item.serviceType
           else ov
         | none => service.pricePerPair * specTierMultiplier service item.serviceType)) := by
  constructor
  · intro hmodel
    simp only [priceItem, hsvc, hmodel] at hok
    injection hok with hok
    subst hok
    cases hov : item.pricePerKg with
    | none => simp [jsOrOptQ, tierMultiplier_eq_spec]
    | some ov =>
      by_cases h0 : ov = 0 <;> simp [jsOrOptQ, jsOrQ, h0, tierMultiplier_eq_spec]
  · intro hmodel
    simp only [priceItem, hsvc, hmodel] at hok
    injection hok with hok
    subst hok
    cases hov : item.pricePerPair with
    | none => simp [jsOrOptQ, tierMultiplier_eq_spec]
    | some ov =>
      by_cases h0 : ov = 0 <;> simp [jsOrOptQ, jsOrQ, h0, tierMultiplier_eq_spec]

/-- C2 witness: the spec's worked example — Wash and Fold, base rate
80, express multiplier 1.5, 3 kg, Express, no override — prices to
3 × (80 × 1.5) = 360. -/
theorem c2_witness :
    ∃ p, priceItem demoCatalog demoExpressItem = .ok p ∧ p.itemTotal = 360 := by
  refine ⟨_, rfl, ?_⟩
  have h := (c2_unit_pricing demoCatalog washFoldService demoExpressItem _ rfl rfl).1 rfl
  rw [h]
  norm_num [demoExpressItem, washFoldService, specTierMultiplier]

/-- A requested sub-item that the pricer can handle without throwing:
either a non-zero (truthy) caller override is supplied, or the name
matches some subcategory of the service. -/
def resolvesSub (service : Service) (sub : RawSubItem) : Prop :=
  (∃ ov, sub.pricePerItem = some ov ∧ ov ≠ 0) ∨
    sub.itemName ∈ service.subcategories.map Subcategory.itemName

/-- The catalog side of the spec's sub-item price: the matched
subcategory's price times the multiplier (0 when there is no match —
only ever used under a resolvability hypothesis). -/
def specSubLookup (service : Service) (m : ℚ) (sub : RawSubItem) : ℚ :=
  match service.subcategories.find? (fun s => s.itemName == sub.itemName) with
  | some sc => sc.price * m
  | none => 0

/-- The spec's sub-item unit price, amended for JS truthiness: the
caller override when supplied and non-zero, else the subcategory price
times the multiplier. -/
def specSubUnitPrice (service : Service) (m : ℚ) (sub : RawSubItem) : ℚ :=
  match sub.pricePerItem with
  | some ov => if ov = 0 then specSubLookup service m sub else ov
  | none => specSubLookup service m sub

theorem find?_itemName_eq_none (service : Service) (nm : String) :
    service.subcategories.find? (fun s => s.itemName == nm) = none ↔
      nm ∉ service.subcategories.map Subcategory.itemName := by
  rw [List.find?_eq_none]
  constructor
  · intro h hmem
    obtain ⟨sc, hsc, hname⟩ := List.mem_map.mp hmem
    exact h sc hsc (beq_iff_eq.mpr hname)
  · intro h sc hsc hbeq
    exact h (List.mem_map.mpr ⟨sc, hsc, eq_of_beq hbeq⟩)

theorem subItemUnitPrice_ok_of_resolves (service : Service) (m : ℚ) (sub : RawSubItem)
    (h : resolvesSub service sub) :
    subItemUnitPrice service m sub = .ok (specSubUnitPrice service m sub) := by
  have hfind : sub.itemName ∈ service.subcategories.map Subcategory.itemName →
      ∃ sc, service.subcategories.find? (fun s => s.itemName == sub.itemName) = some sc := by
    intro hmem
    cases hf : service.subcategories.find? (fun s => s.itemName == sub.itemName) with
    | none => exact absurd hmem ((find?_itemName_eq_none service sub.itemName).mp hf)
    | some sc => exact ⟨sc, rfl⟩
  unfold subItemUnitPrice specSubUnitPrice specSubLookup
  cases hov : sub.pricePerItem with
  | none =>
    rcases h with ⟨ov', hov', -⟩ | hmem
    · rw [hov] at hov'
      cases hov'
    · obtain ⟨sc, hsc⟩ := hfind hmem
      simp [hsc]
  | some ov =>
    by_cases h0 : ov = 0
    · subst h0
      rcases h with ⟨ov', hov', hne⟩ | hmem
      · rw [hov] at hov'
        injection hov' with he
        exact absurd he.symm hne
      · obtain ⟨sc, hsc⟩ := hfind hmem
        simp [hsc]
    · simp [h0]

theorem subItemUnitPrice_err_of_not_resolves (service : Service) (m : ℚ) (sub : RawSubItem)
    (h : ¬ resolvesSub service sub) :
    subItemUnitPrice service m sub = .error (.subcategoryTypeError sub.itemName) := by
  have hB : sub.itemName ∉ service.subcategories.map Subcategory.itemName :=
    fun hm => h (Or.inr hm)
  have hf : service.subcategories.find? (fun s => s.itemName == sub.itemName) = none :=
    (find?_itemName_eq_none service sub.itemName).mpr hB
  unfold subItemUnitPrice
  cases hov : sub.pricePerItem with
  | none => simp [hf]
  | some ov =>
    have h0 : ov = 0 := by
      by_contra hne
      exact h (Or.inl ⟨ov, hov, hne⟩)
    subst h0
    simp [hf]

theorem priceSubItems_ok_of_resolves (service : Service) (m : ℚ) :
    ∀ subs : List RawSubItem, (∀ sub ∈ subs, resolvesSub service sub) →
      ∃ ps, priceSubItems service m subs
        = .ok (ps, (subs.map (fun sub => sub.quantity * specSubUnitPrice service m sub)).sum) := by
  intro subs
  induction subs with
  | nil => intro _; exact ⟨[], by simp [priceSubItems]⟩
  | cons sub rest ih =>
    intro hall
    obtain ⟨ps, hps⟩ := ih (fun s hs => hall s (List.mem_cons_of_mem _ hs))
    refine ⟨⟨sub.itemName, sub.quantity, specSubUnitPrice service m sub⟩ :: ps, ?_⟩
    simp [priceSubItems, subItemUnitPrice_ok_of_resolves service m sub (hall sub (by simp)),
      hps]

theorem priceSubItems_err_of_exists (service : Service) (m : ℚ) :
    ∀ subs : List RawSubItem, (∃ sub ∈ subs, ¬ resolvesSub service sub) →
      ∃ nm, priceSubItems service m subs = .error (.subcategoryTypeError nm) ∧
        ∃ sub ∈ subs, sub.itemName = nm ∧ ¬ resolvesSub service sub := by
  intro subs
  induction subs with
  | nil =>
    rintro ⟨sub, hmem, -⟩
    cases hmem
  | cons sub rest ih =>
    rintro ⟨s, hs, hnr⟩
    by_cases hres : resolvesSub service sub
    · have hsrest : s ∈ rest := by
        rcases List.mem_cons.mp hs with rfl | htail
        · exact absurd hres hnr
        · exact htail
      obtain ⟨nm, herr, s', hs', hnm, hnr'⟩ := ih ⟨s, hsrest, hnr⟩
      refine ⟨nm, ?_, s', List.mem_cons_of_mem _ hs', hnm, hnr'⟩
      simp [priceSubItems, subItemUnitPrice_ok_of_resolves service m sub hres, herr]
    · refine ⟨sub.itemName, ?_, sub, by simp, rfl, hres⟩
      simp [priceSubItems, subItemUnitPrice_err_of_not_resolves service m sub hres]

/-- C4 counterexample: the claim says pricing must fail with a
validation error whenever a requested sub-item name matches no
subcategory, but a sub-item with an unknown name and a truthy caller
override is accepted and priced at the override — here "Pants" is not
in the Ironing service's subcategories yet the item prices to
2 × 50. -/
theorem c4_counterexample :
    (priceItem demoCatalog
        { serviceCategoryID := 2, serviceType := .Standard, weightInKg := 0, pairCount := 0,
          pricePerKg := none, pricePerPair := none,
          subItems := [⟨"Pants", 2, some 50⟩] }).toOption.map ProcessedItem.itemTotal
      = some ((2 : ℚ) * 50 + 0) ∧
    "Pants" ∉ ironService.subcategories.map Subcategory.itemName := by
  exact ⟨rfl, by decide⟩

/-- C4 (amended): for a `PerItem` item, when every requested sub-item
either carries a non-zero override or names an existing subcategory,
pricing succeeds and itemTotal is the sum over sub-items of
quantity × (override if supplied and non-zero, else subcategory price
× multiplier); when some sub-item has no non-zero override and an
unknown name, the pricer fails — with a thrown TypeError surfaced as a
generic 500, not an UnknownSubcategory validation error — naming such
a sub-item, and no order is persisted for that group. -/
theorem c4_subcategory_pricing (catalog : ℕ → Option Service) (service : Service)
    (item : RawItem) (hsvc : catalog item.serviceCategoryID = some service)
    (hmodel : service.pricingModel = .PerItem) :
    ((∀ sub ∈ item.subItems, resolvesSub service sub) →
      ∃ p, priceItem catalog item = .ok p ∧
        p.itemTotal = (item.subItems.map (fun sub =>
          sub.quantity *
            specSubUnitPrice service (tierMultiplier service item.serviceType) sub)).sum) ∧
    ((∃ sub ∈ item.subItems, ¬ resolvesSub service sub) →
      ∃ nm, priceItem catalog item = .error (.subcategoryTypeError nm) ∧
        ∃ sub ∈ item.subItems, sub.itemName = nm ∧ ¬ resolvesSub service sub) := by
  constructor
  · intro hall
    obtain ⟨ps, hps⟩ := priceSubItems_ok_of_resolves service
      (tierMultiplier service item.serviceType) item.subItems hall
    refine ⟨{ serviceCategoryID := item.serviceCategoryID
              serviceType := item.serviceType
              weightInKg := none
              pairCount := none
              pricePerKg := none
              pricePerPair := none
              subItems := ps
              itemTotal := (item.subItems.map (fun sub =>
                sub.quantity *
                  specSubUnitPrice service (tierMultiplier service item.serviceType) sub)).sum },
      ?_, rfl⟩
    simp [priceItem, hsvc, hmodel, hps]
  · intro hex
    obtain ⟨nm, herr, hwit⟩ := priceSubItems_err_of_exists service
      (tierMultiplier service item.serviceType) item.subItems hex
    refine ⟨nm, ?_, hwit⟩
    simp [priceItem, hsvc, hmodel, herr]

/-- C4 witness: two shirts at the catalog price of 10 with Standard
multiplier 1 price to 20. -/
theorem c4_witness :
    ∃ p, priceItem demoCatalog
        { serviceCategoryID := 2, serviceType := .Standard, weightInKg := 0, pairCount := 0,
          pricePerKg := none, pricePerPair := none, subItems := [⟨"Shirt", 2, none⟩] }
      = .ok p ∧ p.itemTotal = 20 := by
  obtain ⟨p, hok, htot⟩ := (c4_subcategory_pricing demoCatalog ironService
      { serviceCategoryID := 2, serviceType := .Standard, weightInKg := 0, pairCount := 0,
        pricePerKg := none, pricePerPair := none, subItems := [⟨"Shirt", 2, none⟩] }
      rfl rfl).1 (by
        intro sub hs
        rcases List.mem_singleton.mp hs with rfl
        exact Or.inr (by decide))
  refine ⟨p, hok, htot.trans ?_⟩
  norm_num [specSubUnitPrice, specSubLookup, ironService, tierMultiplier, jsOrQ, List.find?]

theorem tierMultiplier_nonneg (service : Service) (tier : ServiceTier)
    (he : 0 ≤ service.expressPriceMultiplier) (hs : 0 ≤ service.superfastPriceMultiplier) :
    0 ≤ tierMultiplier service tier := by
  cases tier with
  | Standard => norm_num [tierMultiplier]
  | Express =>
    simp only [tierMultiplier, jsOrQ]
    split
    · norm_num
    · exact he
  | Superfast =>
    simp only [tierMultiplier, jsOrQ]
    split
    · norm_num
    · exact hs

theorem jsOrOptQ_nonneg (x : Option ℚ) (d : ℚ) (hd : 0 ≤ d)
    (hx : ∀ v, x = some v → 0 ≤ v) : 0 ≤ jsOrOptQ x d := by
  cases hx' : x with
  | none => simpa [jsOrOptQ] using hd
  | some v =>
    simp only [jsOrOptQ, jsOrQ]
    split
    · exact hd
    · exact hx v hx'

theorem subItemUnitPrice_nonneg (service : Service) (m : ℚ) (hm : 0 ≤ m)
    (hcat : ∀ sc ∈ service.subcategories, 0 ≤ sc.price) (sub : RawSubItem) (pp : ℚ)
    (hov : ∀ v, sub.pricePerItem = some v → 0 ≤ v)
    (h : subItemUnitPrice service m sub = .ok pp) : 0 ≤ pp := by
  have hfall : ∀ q : ℚ,
      (match service.subcategories.find? (fun s => s.itemName == sub.itemName) with
       | some sc => Except.ok (sc.price * m)
       | none =>
         Except.error (PriceError.subcategoryTypeError sub.itemName)) = Except.ok q →
      0 ≤ q := by
    intro q hq
    split at hq
    next sc hsc =>
      injection hq with hq
      rw [← hq]
      exact mul_nonneg (hcat sc (List.mem_of_find?_eq_some hsc)) hm
    · cases hq
  unfold subItemUnitPrice at h
  split at h
  next ov hpsome =>
    split at h
    · exact hfall pp h
    · injection h with h
      rw [← h]
      exact hov ov hpsome
  next => exact hfall pp h

theorem priceSubItems_total_nonneg (service : Service) (m : ℚ) (hm : 0 ≤ m)
    (hcat : ∀ sc ∈ service.subcategories, 0 ≤ sc.price) :
    ∀ (subs : List RawSubItem) (ps : List ProcessedSubItem) (total : ℚ),
      priceSubItems service m subs = .ok (ps, total) →
      (∀ s ∈ subs, 0 ≤ s.quantity) →
      (∀ s ∈ subs, ∀ v, s.pricePerItem = some v → 0 ≤ v) →
      0 ≤ total := by
  intro subs
  induction subs with
  | nil =>
    intro ps total h _ _
    unfold priceSubItems at h
    injection h with h
    obtain ⟨-, h2⟩ := Prod.mk.injEq .. |>.mp h
    rw [← h2]
  | cons sub rest ih =>
    intro ps total h hq hov
    unfold priceSubItems at h
    split at h
    · cases h
    next pp hpp =>
      split at h
      · cases h
      next ps' total' hrest =>
        injection h with h
        obtain ⟨-, h2⟩ := Prod.mk.injEq .. |>.mp h
        rw [← h2]
        have htail : 0 ≤ total' := ih ps' total' hrest
          (fun s hs => hq s (List.mem_cons_of_mem _ hs))
          (fun s hs => hov s (List.mem_cons_of_mem _ hs))
        have hpp0 : 0 ≤ pp := subItemUnitPrice_nonneg service m hm hcat sub pp
          (hov sub (by simp)) hpp
        exact add_nonneg (mul_nonneg (hq sub (by simp)) hpp0) htail

/-- C9 counterexample: the claim says every priced line item has
itemTotal ≥ 0 for all inputs the pricer accepts, including
caller-supplied overrides — but a negative override price passes the
order schema (which bounds only weights and quantities, not prices)
and produces itemTotal 3 × (−10) < 0. -/
theorem c9_counterexample :
    (priceItem demoCatalog
        { serviceCategoryID := 1, serviceType := .Standard, weightInKg := 3, pairCount := 0,
          pricePerKg := some (-10), pricePerPair := none, subItems := [] }).toOption.map
        (fun p => (p.itemTotal, itemPassesSchema p)) = some ((3 : ℚ) * (-10), true) ∧
    ¬ (0 : ℚ) ≤ 3 * (-10) := by
  exact ⟨rfl, by norm_num⟩

/-- C9 (amended): every priced line item has itemTotal ≥ 0 provided
the request's quantities are nonnegative — which the order schema does
enforce — and all caller-supplied override prices and the catalog's
rates and multipliers are nonnegative; a negative override (not
rejected by any schema bound) can make itemTotal negative. -/
theorem c9_itemTotal_nonneg (catalog : ℕ → Option Service) (item : RawItem)
    (p : ProcessedItem) (hok : priceItem catalog item = .ok p)
    (hw : 0 ≤ item.weightInKg) (hc : 0 ≤ item.pairCount)
    (hq : ∀ s ∈ item.subItems, 0 ≤ s.quantity)
    (hovKg : ∀ v, item.pricePerKg = some v → 0 ≤ v)
    (hovPair : ∀ v, item.pricePerPair = some v → 0 ≤ v)
    (hovSub : ∀ s ∈ item.subItems, ∀ v, s.pricePerItem = some v → 0 ≤ v)
    (hcat : ∀ service, catalog item.serviceCategoryID = some service →
      0 ≤ service.pricePerKg ∧ 0 ≤ service.pricePerPair ∧
      (∀ sc ∈ service.subcategories, 0 ≤ sc.price) ∧
      0 ≤ service.expressPriceMultiplier ∧ 0 ≤ service.superfastPriceMultiplier) :
    0 ≤ p.itemTotal := by
  unfold priceItem at hok
  cases hsvc : catalog item.serviceCategoryID with
  | none =>
    rw [hsvc] at hok
    cases hok
  | some service =>
    rw [hsvc] at hok
    obtain ⟨hKg, hPair, hsubcat, hem, hsm⟩ := hcat service hsvc
    have hmul : 0 ≤ tierMultiplier service item.serviceType :=
      tierMultiplier_nonneg service _ hem hsm
    simp only [] at hok
    split at hok
    · injection hok with hok
      subst hok
      exact mul_nonneg hw (jsOrOptQ_nonneg _ _ (mul_nonneg hKg hmul) hovKg)
    · injection hok with hok
      subst hok
      exact mul_nonneg hc (jsOrOptQ_nonneg _ _ (mul_nonneg hPair hmul) hovPair)
    · split at hok
      · cases hok
      next subs total hps =>
        injection hok with hok
        subst hok
        exact priceSubItems_total_nonneg service _ hmul hsubcat item.subItems subs total
          hps hq hovSub

/-- C9 witness: the Standard 2 kg demo item with no overrides prices
to a nonnegative total. -/
theorem c9_witness :
    ∃ p, priceItem demoCatalog demoStandardItem = .ok p ∧ 0 ≤ p.itemTotal := by
  refine ⟨_, rfl, ?_⟩
  refine c9_itemTotal_nonneg demoCatalog demoStandardItem _ rfl (by norm_num [demoStandardItem])
    (by norm_num [demoStandardItem]) ?_ ?_ ?_ ?_ ?_
  · intro s hs
    simp [demoStandardItem] at hs
  · intro v hv
    simp [demoStandardItem] at hv
  · intro v hv
    simp [demoStandardItem] at hv
  · intro s hs
    simp [demoStandardItem] at hs
  · intro service hsvc
    have : washFoldService = service := by
      simpa [demoCatalog, demoStandardItem] using hsvc
    rw [← this]
    refine ⟨by norm_num [washFoldService], by norm_num [washFoldService], ?_,
      by norm_num [washFoldService], by norm_num [washFoldService]⟩
    intro sc hsc
    simp [washFoldService] at hsc

end WashX
